import Mathlib

/-!
Verification of the autocreate chord-chart front-end logic of the guitar
practice routine application, shallowly embedded from
`app/static/js/components/ChordChartsModal.jsx`.

State held in React `useState` maps keyed by item id is modelled as
functions `Nat → Option α`; JavaScript truthiness on a map entry
(`undefined`/`null`/`''`/`0` are falsy) is modelled explicitly at each use
site.  Network effects (fetches) are modelled by oracle records supplying
each response and by an explicit list of the calls a handler issued.
-/

set_option maxRecDepth 20000

namespace GPR

/-- JavaScript `a || b` on an optional string field, where `undefined`,
`null` and the empty string are falsy (`chart.sectionId || 'default-section'`). -/
def jsOr (o : Option String) (d : String) : String :=
  match o with
  | none => d
  | some s => if s = "" then d else s

/-- One chord chart record as the modal receives it from
`/api/items/<id>/chord-charts` (only the fields the verified code reads). -/
structure Chart where
  id : Nat
  sectionId : Option String
  sectionLabel : Option String
  sectionRepeatCount : Option String
  hasLineBreakAfter : Bool
  order : Int
  deriving Repr, DecidableEq

/-- One section group as produced by `buildSectionsFromCharts`. -/
structure SectionGroup where
  id : String
  label : String
  repeatCount : String
  chords : List Chart
  deriving Repr, DecidableEq

/-- The effective section id of a chart: `chart.sectionId || 'default-section'`. -/
def effSectionId (c : Chart) : String :=
  jsOr c.sectionId "default-section"

/-- One step of the `charts.forEach` loop of `buildSectionsFromCharts`:
if the chart's section id is already a key of the (insertion-ordered) map,
append the chart to that group's `chords`; otherwise append a fresh group
whose label and repeat count come from this first chart. -/
def insertChart (acc : List SectionGroup) (c : Chart) : List SectionGroup :=
  let sid := effSectionId c
  if acc.any (fun s => s.id = sid) then
    acc.map (fun s => if s.id = sid then { s with chords := s.chords ++ [c] } else s)
  else
    acc ++ [{ id := sid
              label := jsOr c.sectionLabel "Section"
              repeatCount := jsOr c.sectionRepeatCount ""
              chords := [c] }]

/-- `buildSectionsFromCharts` (ChordChartsModal.jsx lines 504-525): groups a
chart list into sections keyed by section id, in insertion order of a JS `Map`. -/
def buildSectionsFromCharts (charts : List Chart) : List SectionGroup :=
  charts.foldl insertChart []

/-- The distinct effective section ids of a chart list, in order of first
occurrence. -/
def distinctSectionIds (charts : List Chart) : List String :=
  charts.foldl (fun acc c => if effSectionId c ∈ acc then acc else acc ++ [effSectionId c]) []

/-! ### JavaScript string primitives -/

/-- The character class of JavaScript regex `\s` (and of `String.prototype.trim`):
ASCII whitespace, NBSP, the Unicode space separators, line/paragraph
separators, narrow/medium spaces, ideographic space and BOM. -/
def jsWhitespaceChar (c : Char) : Bool :=
  c = ' ' || c = '\t' || c = '\n' || c = '\r'
  || c.toNat = 11 || c.toNat = 12
  || c.toNat = 0xa0 || c.toNat = 0x1680
  || (0x2000 ≤ c.toNat && c.toNat ≤ 0x200a)
  || c.toNat = 0x2028 || c.toNat = 0x2029 || c.toNat = 0x202f
  || c.toNat = 0x205f || c.toNat = 0x3000 || c.toNat = 0xfeff

/-- JavaScript `String.prototype.trim` on a character list. -/
def jsTrimList (l : List Char) : List Char :=
  ((l.dropWhile jsWhitespaceChar).reverse.dropWhile jsWhitespaceChar).reverse

/-- JavaScript `String.prototype.trim`. -/
def jsTrim (s : String) : String :=
  ⟨jsTrimList s.data⟩

/-- One right-fold step of the run-splitter: the state is (does the suffix
processed so far begin with a separator?, the JS split of that suffix). -/
def splitRunsStep (p : Char → Bool) (c : Char) (st : Bool × List (List Char)) :
    Bool × List (List Char) :=
  if p c then
    if st.1 then (true, st.2) else (true, [] :: st.2)
  else
    (false, (c :: st.2.headD []) :: st.2.tail)

/-- JavaScript `str.split(/[sep]+/)`: split at each maximal nonempty run of
separator characters, keeping empty leading/trailing pieces as JS does
(`"".split` gives `[""]`, a separator run at an end yields an empty piece,
adjacent separators collapse into one split point). -/
def splitRuns (p : Char → Bool) (l : List Char) : List (List Char) :=
  (l.foldr (splitRunsStep p) (false, [[]])).2

/-! ### `validateManualChordInput` (ChordChartsModal.jsx lines 1012-1058)

The source file's two regex character classes were written for `♭` and `♯`
but the file's actual bytes are the mojibake characters `‚` (U+201A),
`ô` (U+00F4), `≠` (U+2260) and `Ø` (U+00D8); the embedding uses the
characters actually present in the source. -/

/-- The four literal non-ASCII characters present in both regex classes of
the source (`‚`, `ô`, `≠`, `Ø`). -/
def mojibakeAccidental (c : Char) : Bool :=
  c.toNat = 0x201a || c.toNat = 0xf4 || c.toNat = 0x2260 || c.toNat = 0xd8

/-- The class of `validPattern = /^[A-Za-z0-9#b‚ô≠‚ôØ/\s,\n\r-]+$/`
(`b`, `\n`, `\r` are subsumed by `isAlpha` and `\s`). -/
def validPatternChar (c : Char) : Bool :=
  c.isAlpha || c.isDigit || c = '#' || mojibakeAccidental c
  || c = '/' || jsWhitespaceChar c || c = ',' || c = '-'

/-- The suffix class of the chord-word regex `/^[A-Ga-g][A-Za-z0-9#b‚ô≠‚ôØ/]*$/`. -/
def chordSuffixChar (c : Char) : Bool :=
  c.isAlpha || c.isDigit || c = '#' || mojibakeAccidental c || c = '/'

/-- A chord root letter `[A-Ga-g]`. -/
def chordRootChar (c : Char) : Bool :=
  ('A' ≤ c && c ≤ 'G') || ('a' ≤ c && c ≤ 'g')

/-- A word matching `/^[A-Ga-g][A-Za-z0-9#b‚ô≠‚ôØ/]*$/`. -/
def isChordWord (w : List Char) : Bool :=
  match w with
  | [] => false
  | c :: rest => chordRootChar c && rest.all chordSuffixChar

/-- A clean line matching the section-name regex `/^[A-Za-z]+$/`. -/
def isSectionName (cl : List Char) : Bool :=
  !cl.isEmpty && cl.all Char.isAlpha

/-- Word separators of `cleanLine.split(/[,\s]+/)`. -/
def wordSepChar (c : Char) : Bool :=
  c = ',' || jsWhitespaceChar c

/-- The body of the `lines.some(...)` callback: a line counts as valid
content when its trimmed form is nonempty and is either a section name or
consists only of chord words (vacuously true when it has zero words). -/
def lineHasValidContent (line : List Char) : Bool :=
  let cl := jsTrimList line
  if cl.isEmpty then false
  else if isSectionName cl then true
  else ((splitRuns wordSepChar cl).filter (fun w => !w.isEmpty)).all isChordWord

/-- Line separators of `trimmedInput.split(/[\n\r]+/)`. -/
def lineSepChar (c : Char) : Bool :=
  c = '\n' || c = '\r'

/-- First validation error message of the source. -/
def errBadCharsMsg : String :=
  "Only chord names (A-G), numbers, #, b, ‚ô≠, ‚ôØ, /, commas, spaces, and section names are allowed"

/-- Second validation error message of the source. -/
def errNoContentMsg : String :=
  "Please enter chord names separated by commas, spaces, or section names (e.g., \"C, G, Am, F\" or \"D A G D\" or \"Intro\")"

/-- `validateManualChordInput` (lines 1012-1058): returns the boolean the
source returns, paired with the value written to `manualInputErrors[itemId]`
(`none` models the explicit `null`). -/
def validateManualChordInput (input : String) : Bool × Option String :=
  if (jsTrim input).data.isEmpty then (true, none)
  else
    let t := (jsTrim input).data
    if !t.all validPatternChar then (false, some errBadCharsMsg)
    else if !(splitRuns lineSepChar t).any lineHasValidContent then
      (false, some errNoContentMsg)
    else (true, none)

/-! ### The modal's React state (the `useState` maps the verified handlers touch) -/

/-- The `autocreateProgress[itemId]` string values the verified handlers write. -/
inductive Progress
  | checking_transcript | uploading | processing | complete | failed
  deriving Repr, DecidableEq

/-- The `useState` maps keyed by item id, plus the scalar state the verified
handlers touch.  `abortedControllers` records which abort controllers have
had `.abort()` called (controllers are identified by a number); `alerts`
records the browser `alert(...)` calls issued. -/
structure ModalState where
  chordCharts : Nat → Option (List Chart)
  chordSections : Nat → Option (List SectionGroup)
  uploadedFiles : Nat → Option (List String)
  youtubeUrls : Nat → Option String
  manualChordInput : Nat → Option String
  manualInputErrors : Nat → Option String
  autocreateProgress : Nat → Option Progress
  autocreateAbortController : Nat → Option Nat
  abortedControllers : List Nat
  showAutocreateZone : Nat → Option Bool
  showApiErrorModal : Bool
  apiError : Option String
  showAutocreateSuccessModal : Bool
  alerts : List String
  showDeleteChordsModal : Bool
  deleteModalItemId : Option Nat

/-- Write one key of a state map (`setX(prev => ({ ...prev, [itemId]: v }))`;
with `v = none` it models deleting the key). -/
def upd {α : Type} (f : Nat → Option α) (i : Nat) (v : Option α) : Nat → Option α :=
  fun j => if j = i then v else f j

@[simp] theorem upd_same {α : Type} (f : Nat → Option α) (i : Nat) (v : Option α) :
    upd f i v i = v := by simp [upd]

@[simp] theorem upd_other {α : Type} (f : Nat → Option α) (i j : Nat) (v : Option α)
    (h : j ≠ i) : upd f i v j = f j := by simp [upd, h]

/-! ### `handleSingleFileDrop` (lines 1060-1070) -/

/-- Alert text of the file-count guard. -/
def tooManyFilesMsg : String := "Maximum 5 files allowed. Please select fewer files."

/-- `handleSingleFileDrop(itemId, files)`: empty selections are ignored, more
than 5 files triggers an alert and nothing else, otherwise the item's
`uploadedFiles` entry becomes exactly the given list. -/
def handleSingleFileDrop (itemId : Nat) (files : List String) (s : ModalState) : ModalState :=
  if files.length = 0 then s
  else if files.length > 5 then
    { s with alerts := s.alerts ++ [tooManyFilesMsg] }
  else
    { s with uploadedFiles := upd s.uploadedFiles itemId (some files) }

/-! ### The manual-entry textarea `onChange` handler (lines 1975-1985) -/

/-- The `onChange` handler of the manual-entry textarea: the typed value is
stored (and validated, recording any validation message) only when its
length is at most 500; longer values leave the state untouched. -/
def manualInputChange (itemId : Nat) (value : String) (s : ModalState) : ModalState :=
  if value.length ≤ 500 then
    { s with
      manualChordInput := upd s.manualChordInput itemId (some value)
      manualInputErrors := upd s.manualInputErrors itemId (validateManualChordInput value).2 }
  else s

/-! ### The YouTube input `onChange` handler (lines 1953-1959) -/

/-- The characters removed by `value.replace(/[<>"']/g, '')` — `<`, `>`,
double quote (34) and apostrophe (39). -/
def sanitizedOutChar (c : Char) : Bool :=
  c = '<' || c = '>' || c.toNat = 34 || c.toNat = 39

/-- `value.replace(/[<>"']/g, '')`. -/
def stripAngleQuote (v : String) : String :=
  ⟨v.data.filter (fun c => !sanitizedOutChar c)⟩

/-- The YouTube URL input `onChange` handler: stores the sanitized value. -/
def youtubeUrlChange (itemId : Nat) (value : String) (s : ModalState) : ModalState :=
  { s with youtubeUrls := upd s.youtubeUrls itemId (some (stripAngleQuote value)) }

/-! ### The Create Chord Charts button `disabled` predicate (lines 2010-2014) -/

/-- Truthiness of `map[itemId]?.trim()`. -/
def entryTruthy (f : Nat → Option String) (i : Nat) : Bool :=
  match f i with
  | none => false
  | some s => !(jsTrim s).isEmpty

/-- `uploadedFiles[itemReferenceId] || []`. -/
def filesFor (s : ModalState) (i : Nat) : List String :=
  (s.uploadedFiles i).getD []

/-- The number of provided input modalities, as summed by the source. -/
def inputBits (s : ModalState) (i : Nat) : Nat :=
  (if (filesFor s i).length > 0 then 1 else 0)
  + (if entryTruthy s.youtubeUrls i then 1 else 0)
  + (if entryTruthy s.manualChordInput i then 1 else 0)

/-- The button's `disabled` expression: a truthy progress entry, or no input
modality at all, or more than one input modality. -/
def createDisabled (s : ModalState) (i : Nat) : Bool :=
  (s.autocreateProgress i).isSome
  || ((filesFor s i).length = 0 && !entryTruthy s.youtubeUrls i
        && !entryTruthy s.manualChordInput i)
  || decide (inputBits s i > 1)

/-! ### `handleProcessFiles` (lines 1072-1102) -/

/-- The three per-modality handlers `handleProcessFiles` can invoke. -/
inductive AutocreateHandler
  | youtube | manualEntry | fileDrop
  deriving Repr, DecidableEq

/-- Alert text of the no-input branch of `handleProcessFiles`. -/
def noInputMsg : String :=
  "Please add at least one file, YouTube URL, or manual chord input before processing."

/-- `handleProcessFiles(itemId)`: which per-modality handler is invoked (if
any), together with its own state effects (the validation message written by
`validateManualChordInput`, or the no-input alert). -/
def handleProcessFiles (itemId : Nat) (s : ModalState) : Option AutocreateHandler × ModalState :=
  if entryTruthy s.youtubeUrls itemId then (some .youtube, s)
  else if entryTruthy s.manualChordInput itemId then
    let mc := jsTrim ((s.manualChordInput itemId).getD "")
    let v := validateManualChordInput mc
    let s1 := { s with manualInputErrors := upd s.manualInputErrors itemId v.2 }
    if v.1 then (some .manualEntry, s1) else (none, s1)
  else if (filesFor s itemId).length = 0 then
    (none, { s with alerts := s.alerts ++ [noInputMsg] })
  else (some .fileDrop, s)

/-! ### `handleCancelAutocreate` (lines 1484-1515) -/

/-- `handleCancelAutocreate(itemId)`: abort the item's in-flight controller
when one exists, then discard the item's transient autocreate state. -/
def handleCancelAutocreate (itemId : Nat) (s : ModalState) : ModalState :=
  let s0 :=
    match s.autocreateAbortController itemId with
    | some ctrl => { s with abortedControllers := s.abortedControllers ++ [ctrl] }
    | none => s
  { s0 with
    autocreateProgress := upd s0.autocreateProgress itemId none
    autocreateAbortController := upd s0.autocreateAbortController itemId none
    uploadedFiles := upd s0.uploadedFiles itemId none
    youtubeUrls := upd s0.youtubeUrls itemId (some "")
    manualChordInput := upd s0.manualChordInput itemId (some "")
    showAutocreateZone := upd s0.showAutocreateZone itemId (some false) }

/-! ### `handleDeleteExistingCharts` (lines 1442-1476) -/

/-- The `for (const chart of existingCharts)` DELETE loop: `ok id` tells
whether the server answered the DELETE of chart `id` with success.  Returns
the ids actually deleted on the server (the prefix up to the first failure)
and whether the loop completed without throwing. -/
def runDeleteLoop (ok : Nat → Bool) : List Chart → List Nat × Bool
  | [] => ([], true)
  | c :: rest =>
    if ok c.id then
      let r := runDeleteLoop ok rest
      (c.id :: r.1, r.2)
    else ([], false)

/-- `handleDeleteExistingCharts()`: takes the server's chart list for the
modal item, issues one DELETE per client-known chart, and — only when every
DELETE succeeded — clears the client state and opens the autocreate zone.
A failure mid-loop is only logged: the function returns with the server
store already missing the charts deleted before the failure and the client
state untouched.  Returns (server store after the calls, new client state). -/
def handleDeleteExistingCharts (ok : Nat → Bool) (store : List Chart) (s : ModalState) :
    List Chart × ModalState :=
  match s.deleteModalItemId with
  | none => (store, s)
  | some itemId =>
    let existing := (s.chordCharts itemId).getD []
    let r := runDeleteLoop ok existing
    let store1 := store.filter (fun c => !(r.1.contains c.id))
    if r.2 then
      (store1,
       { s with
         chordCharts := upd s.chordCharts itemId (some [])
         chordSections := upd s.chordSections itemId (some [])
         showAutocreateZone := upd s.showAutocreateZone itemId (some true)
         showDeleteChordsModal := false
         deleteModalItemId := none })
    else (store1, s)

/-! ### The per-section chord grid rows (lines 1755-1771) -/

/-- The `section.chords.forEach` row-grouping loop: a chart is pushed onto
the current row, and the row is closed when the chart carries
`hasLineBreakAfter`, when the row has reached 5 charts, or at the last
chart of the section. -/
def chordRowsGo (current : List Chart) : List Chart → List (List Chart)
  | [] => []
  | c :: rest =>
    let row := current ++ [c]
    if c.hasLineBreakAfter || row.length ≥ 5 || rest.isEmpty then
      row :: chordRowsGo [] rest
    else chordRowsGo row rest

/-- The rows rendered for one section's chart list. -/
def chordRows (chords : List Chart) : List (List Chart) :=
  chordRowsGo [] chords

/-! ### `handleYouTubeUrl` (lines 1204-1322) -/

/-- Drop a literal character sequence from the front of a character list,
returning the rest on success. -/
def dropLit : List Char → List Char → Option (List Char)
  | [], s => some s
  | _ :: _, [] => none
  | p :: ps, c :: cs => if c = p then dropLit ps cs else none

/-- JavaScript word characters plus hyphen, the class `[\w-]`. -/
def wordDashChar (c : Char) : Bool :=
  c.isAlpha || c.isDigit || c = '_' || c = '-'

/-- JavaScript line terminators, the characters `.` does not match. -/
def lineTerminatorChar (c : Char) : Bool :=
  c = '\n' || c = '\r' || c.toNat = 0x2028 || c.toNat = 0x2029

/-- The trailing `(\?.*|&.*)?$` of the YouTube regex. -/
def ytTailOk (rest : List Char) : Bool :=
  match rest with
  | [] => true
  | c :: cs => (c = '?' || c = '&') && cs.all (fun d => !lineTerminatorChar d)

/-- `[\w-]+(\?.*|&.*)?$` — a nonempty id run followed by an admissible tail
(the id class is disjoint from `?`/`&`, so greedy matching is exact). -/
def ytIdAndTail (s : List Char) : Bool :=
  !(s.takeWhile wordDashChar).isEmpty && ytTailOk (s.dropWhile wordDashChar)

/-- The source's
`/^https?:\/\/(www\.)?(youtube\.com\/watch\?v=[\w-]+|youtu\.be\/[\w-]+)(\?.*|&.*)?$/`
(each optional/alternative piece is decided by its distinct first literal
character, so the translation needs no backtracking). -/
def youtubeRegexTest (url : String) : Bool :=
  match dropLit ("http".data) url.data with
  | none => false
  | some r1 =>
    let r2 := match r1 with
      | 's' :: t => t
      | _ => r1
    match dropLit ("://".data) r2 with
    | none => false
    | some r3 =>
      let r4 := match dropLit ("www.".data) r3 with
        | some t => t
        | none => r3
      match dropLit ("youtube.com/watch?v=".data) r4 with
      | some r5 => ytIdAndTail r5
      | none =>
        match dropLit ("youtu.be/".data) r4 with
        | some r5 => ytIdAndTail r5
        | none => false

/-- Invalid-URL error modal message. -/
def invalidUrlMsg : String :=
  "Please enter a valid YouTube URL (e.g., https://youtube.com/watch?v=...)"

/-- No-transcript error modal message. -/
def noTranscriptMsg : String :=
  "This YouTube video does not have a transcript available. Please try a different video or use file upload instead."

/-- Generic catch-block error modal message of `handleYouTubeUrl`. -/
def ytFailedMsg : String :=
  "Failed to process YouTube URL. Please try again."

/-- The network responses `handleYouTubeUrl` can consume. -/
structure YTNet where
  checkOk : Bool
  hasTranscript : Bool
  transcript : Option String
  autocreateOk : Bool
  refreshedCharts : List Chart

/-- The remote calls `handleYouTubeUrl` can issue, in order. -/
inductive NetCall
  | checkTranscript (url : String)
  | autocreate (itemId : Nat)
  | fetchCharts (itemId : Nat)
  deriving Repr, DecidableEq

/-- JavaScript falsiness of `transcriptData.transcript`. -/
def jsFalsyOptStr (o : Option String) : Bool :=
  match o with
  | none => true
  | some s => s.isEmpty

/-- The `finally` block: delete the item's progress entry. -/
def clearProgress (itemId : Nat) (s : ModalState) : ModalState :=
  { s with autocreateProgress := upd s.autocreateProgress itemId none }

/-- `handleYouTubeUrl(itemId, youtubeUrl)`: sanitize and validate the URL
(returning before any network call on failure), check the transcript,
treat a missing transcript as a surfaced error without calling autocreate,
otherwise run autocreate and refresh the item's charts.  Returns the new
state and the list of network calls issued. -/
def handleYouTubeUrl (net : YTNet) (itemId : Nat) (youtubeUrl : String) (s : ModalState) :
    ModalState × List NetCall :=
  let sanitizedUrl := stripAngleQuote (jsTrim youtubeUrl)
  if !youtubeRegexTest sanitizedUrl then
    ({ s with apiError := some invalidUrlMsg, showApiErrorModal := true }, [])
  else
    let s1 := { s with autocreateProgress := upd s.autocreateProgress itemId (some .checking_transcript) }
    if !net.checkOk then
      (clearProgress itemId { s1 with apiError := some ytFailedMsg, showApiErrorModal := true },
       [.checkTranscript sanitizedUrl])
    else if !net.hasTranscript || jsFalsyOptStr net.transcript then
      (clearProgress itemId { s1 with apiError := some noTranscriptMsg, showApiErrorModal := true },
       [.checkTranscript sanitizedUrl])
    else
      let s2 := { s1 with autocreateProgress := upd s1.autocreateProgress itemId (some .processing) }
      if !net.autocreateOk then
        (clearProgress itemId { s2 with apiError := some ytFailedMsg, showApiErrorModal := true },
         [.checkTranscript sanitizedUrl, .autocreate itemId])
      else
        let charts := net.refreshedCharts
        (clearProgress itemId
          { s2 with
            chordCharts := upd s2.chordCharts itemId (some charts)
            chordSections := upd s2.chordSections itemId (some (buildSectionsFromCharts charts))
            youtubeUrls := upd s2.youtubeUrls itemId (some "")
            showAutocreateSuccessModal := true },
         [.checkTranscript sanitizedUrl, .autocreate itemId, .fetchCharts itemId])

/-- An empty modal state, used to instantiate witnesses. -/
def state0 : ModalState :=
  { chordCharts := fun _ => none
    chordSections := fun _ => none
    uploadedFiles := fun _ => none
    youtubeUrls := fun _ => none
    manualChordInput := fun _ => none
    manualInputErrors := fun _ => none
    autocreateProgress := fun _ => none
    autocreateAbortController := fun _ => none
    abortedControllers := []
    showAutocreateZone := fun _ => none
    showApiErrorModal := false
    apiError := none
    showAutocreateSuccessModal := false
    alerts := []
    showDeleteChordsModal := false
    deleteModalItemId := none }

/-- A 501-character manual input. -/
def overlongInput : String := ⟨List.replicate 501 'C'⟩

/-- A 500-character manual input. -/
def maxLenInput : String := ⟨List.replicate 500 'C'⟩

/-- A state with an in-flight job (controller 7) on item 1, uploaded files
on item 2, and progress on item 2. -/
def stateBusy : ModalState :=
  { state0 with
    autocreateAbortController := upd state0.autocreateAbortController 1 (some 7)
    autocreateProgress :=
      upd (upd state0.autocreateProgress 1 (some Progress.processing)) 2
        (some Progress.uploading)
    uploadedFiles := upd state0.uploadedFiles 2 (some ["x.pdf"])
    chordCharts := upd state0.chordCharts 1 (some []) }

/-- A state where item 1 already has one chart. -/
def stateWithChart : ModalState :=
  { state0 with
    chordCharts := upd state0.chordCharts 1
      (some [⟨10, some "s", some "Verse", some "", false, 0⟩]) }

/-- A chart of the delete scenario: id `i`, section `s1`, order `i`. -/
def chartN (i : Nat) : Chart := ⟨i, some "s1", some "Verse", some "", false, (i : Int)⟩

/-- Server store of 4 charts for the delete scenario. -/
def storeFour : List Chart := [chartN 1, chartN 2, chartN 3, chartN 4]

/-- A state showing the delete-existing-charts confirmation for item 1,
whose 4 charts are loaded. -/
def stateDelete : ModalState :=
  { state0 with
    chordCharts := upd state0.chordCharts 1 (some storeFour)
    deleteModalItemId := some 1
    showDeleteChordsModal := true }

/-- A DELETE oracle under which the deletion of chart 3 fails. -/
def failAtThree : Nat → Bool := fun i => decide (i ≤ 2)

/-- A state whose only input on item 1 is the (invalid) manual text `-`. -/
def stateManualBad : ModalState :=
  { state0 with manualChordInput := upd state0.manualChordInput 1 (some "-") }

/-- A state whose only input on item 1 is a YouTube URL. -/
def stateYT : ModalState :=
  { state0 with youtubeUrls := upd state0.youtubeUrls 1 (some "https://youtu.be/x") }

/-- Modelled from the claim's wording of the allowed character set for
manual chord input: letters, digits, `#`, `b`, the flat sign `♭` (U+266D),
the sharp sign `♯` (U+266F), `/`, hyphen, commas, spaces and line breaks. -/
def claimAllowedChar (c : Char) : Bool :=
  c.isAlpha || c.isDigit || c = '#' || c = 'b'
  || c.toNat = 0x266d || c.toNat = 0x266f
  || c = '/' || c = '-' || c = ',' || c = ' ' || c = '\n' || c = '\r'


/-- The minimum `order` of a chart list (0 for the empty list). -/
def listMinOrder : List Chart → Int
  | [] => 0
  | c :: rest => rest.foldl (fun m d => min m d.order) c.order

/-- A 4-chart, 3-section chart list sorted by order. -/
def chartsW : List Chart :=
  [⟨1, some "verse", some "Verse", some "", false, 0⟩,
   ⟨2, some "verse", some "Verse", some "", false, 1⟩,
   ⟨3, some "chorus", some "Chorus", some "x2", false, 2⟩,
   ⟨4, none, none, none, false, 3⟩]

/-! ## Theorems -/

/-- C2: for every call to `handleSingleFileDrop(itemId, files)` with a
non-empty file list, a list of 5 or fewer files is stored verbatim (in
order) as the item's `uploadedFiles` entry (other entries untouched), while
a list of 6 or more files triggers the alert and leaves the whole
`uploadedFiles` map — and the rest of the state — completely unchanged. -/
theorem singleFileDrop_limit (itemId : Nat) (files : List String) (s : ModalState)
    (hne : files ≠ []) :
    (files.length ≤ 5 →
      (handleSingleFileDrop itemId files s).uploadedFiles itemId = some files
      ∧ (∀ j, j ≠ itemId →
          (handleSingleFileDrop itemId files s).uploadedFiles j = s.uploadedFiles j)
      ∧ (handleSingleFileDrop itemId files s).alerts = s.alerts)
    ∧ (6 ≤ files.length →
      handleSingleFileDrop itemId files s
        = { s with alerts := s.alerts ++ [tooManyFilesMsg] }) := by
  have hlen : ¬ files.length = 0 := fun h => hne (List.length_eq_zero.mp h)
  constructor
  · intro h5
    have hgt : ¬ files.length > 5 := by omega
    refine ⟨?_, ?_, ?_⟩ <;> simp [handleSingleFileDrop, hlen, hgt, upd]
    intro j hj
    simp [hj]
  · intro h6
    have hgt : files.length > 5 := by omega
    simp [handleSingleFileDrop, hlen, hgt]

/-- Witness for C2: a 3-file drop on item 1 of the empty state stores the
list verbatim, and a 6-file drop only alerts. -/
theorem singleFileDrop_limit_witness :
    (handleSingleFileDrop 1 ["a.pdf", "b.png", "c.jpg"] state0).uploadedFiles 1
        = some ["a.pdf", "b.png", "c.jpg"]
    ∧ handleSingleFileDrop 1 ["f1", "f2", "f3", "f4", "f5", "f6"] state0
        = { state0 with alerts := state0.alerts ++ [tooManyFilesMsg] } :=
  ⟨((singleFileDrop_limit 1 ["a.pdf", "b.png", "c.jpg"] state0 (by decide)).1 (by decide)).1,
   (singleFileDrop_limit 1 ["f1", "f2", "f3", "f4", "f5", "f6"] state0 (by decide)).2 (by decide)⟩

/-- C3 counterexample: a 501-character manual chord input is not "rejected
with `InputTooLarge`" — the textarea `onChange` handler silently ignores it,
leaving the entire state (in particular `manualChordInput` and
`manualInputErrors`) unchanged and surfacing no error of any kind. -/
theorem manualInput_501_not_rejected :
    overlongInput.length = 501
    ∧ manualInputChange 1 overlongInput state0 = state0
    ∧ (manualInputChange 1 overlongInput state0).manualInputErrors 1 = none := by
  have hlen : overlongInput.length = 501 := by
    show (List.replicate 501 'C').length = 501
    exact List.length_replicate 501 'C'
  have hgt : ¬ overlongInput.length ≤ 500 := by omega
  refine ⟨hlen, ?_, ?_⟩ <;> simp [manualInputChange, hgt, state0]

/-- C3 (amended): an input of at most 500 characters is stored in
`manualChordInput` (with the validator's message recorded), while an input
of 501 or more characters is silently ignored: the handler leaves the state
untouched, records no error, and never surfaces `InputTooLarge`; no remote
call is made in either case. -/
theorem manualInput_length_gate (itemId : Nat) (value : String) (s : ModalState) :
    (value.length ≤ 500 →
      (manualInputChange itemId value s).manualChordInput itemId = some value
      ∧ (manualInputChange itemId value s).manualInputErrors itemId
          = (validateManualChordInput value).2)
    ∧ (500 < value.length → manualInputChange itemId value s = s) := by
  constructor
  · intro h5
    constructor <;> simp [manualInputChange, h5, upd]
  · intro h5
    have hgt : ¬ value.length ≤ 500 := by omega
    simp [manualInputChange, hgt]

/-- Witness for amended C3: an input of exactly 500 characters is accepted
and stored (and passes validation, so no error is recorded). -/
theorem manualInput_length_gate_witness :
    maxLenInput.length = 500
    ∧ (manualInputChange 1 maxLenInput state0).manualChordInput 1 = some maxLenInput
    ∧ (manualInputChange 1 maxLenInput state0).manualInputErrors 1 = none := by
  have hlen : maxLenInput.length = 500 := by
    show (List.replicate 500 'C').length = 500
    exact List.length_replicate 500 'C'
  have h := (manualInput_length_gate 1 maxLenInput state0).1 (by omega)
  refine ⟨hlen, h.1, ?_⟩
  rw [h.2]
  decide

/-- C9: cancelling an item's in-flight autocreate job aborts that item's
abort controller, discards all of the item's transient job state (progress,
controller, uploaded files, YouTube URL, manual input, autocreate-zone
flag), performs no chord-chart writes (`chordCharts`/`chordSections` are
untouched and no network call is modelled by the handler), and leaves every
other item's entries unchanged. -/
theorem cancelAutocreate_frame (itemId ctrl : Nat) (s : ModalState)
    (hctrl : s.autocreateAbortController itemId = some ctrl) :
    (handleCancelAutocreate itemId s).abortedControllers
        = s.abortedControllers ++ [ctrl]
    ∧ (handleCancelAutocreate itemId s).autocreateProgress itemId = none
    ∧ (handleCancelAutocreate itemId s).autocreateAbortController itemId = none
    ∧ (handleCancelAutocreate itemId s).uploadedFiles itemId = none
    ∧ (handleCancelAutocreate itemId s).youtubeUrls itemId = some ""
    ∧ (handleCancelAutocreate itemId s).manualChordInput itemId = some ""
    ∧ (handleCancelAutocreate itemId s).showAutocreateZone itemId = some false
    ∧ (handleCancelAutocreate itemId s).chordCharts = s.chordCharts
    ∧ (handleCancelAutocreate itemId s).chordSections = s.chordSections
    ∧ ∀ j, j ≠ itemId →
        (handleCancelAutocreate itemId s).autocreateProgress j = s.autocreateProgress j
        ∧ (handleCancelAutocreate itemId s).autocreateAbortController j
            = s.autocreateAbortController j
        ∧ (handleCancelAutocreate itemId s).uploadedFiles j = s.uploadedFiles j
        ∧ (handleCancelAutocreate itemId s).youtubeUrls j = s.youtubeUrls j
        ∧ (handleCancelAutocreate itemId s).manualChordInput j = s.manualChordInput j
        ∧ (handleCancelAutocreate itemId s).showAutocreateZone j = s.showAutocreateZone j := by
  refine ⟨?_, ?_, ?_, ?_, ?_, ?_, ?_, ?_, ?_, ?_⟩ <;>
    simp [handleCancelAutocreate, hctrl, upd]
  intro j hj
  simp [hj]

/-- Witness for C9: cancelling item 1 of `stateBusy` aborts controller 7,
clears item 1's transient state, and leaves item 2's progress and uploads
alone. -/
theorem cancelAutocreate_frame_witness :
    stateBusy.autocreateAbortController 1 = some 7
    ∧ (handleCancelAutocreate 1 stateBusy).abortedControllers = [7]
    ∧ (handleCancelAutocreate 1 stateBusy).autocreateProgress 1 = none
    ∧ (handleCancelAutocreate 1 stateBusy).autocreateProgress 2
        = some Progress.uploading
    ∧ (handleCancelAutocreate 1 stateBusy).uploadedFiles 2 = some ["x.pdf"] := by
  have h := cancelAutocreate_frame 1 7 stateBusy rfl
  have h2 := h.2.2.2.2.2.2.2.2.2 2 (by decide)
  refine ⟨rfl, ?_, h.2.1, ?_, ?_⟩
  · rw [h.1]; rfl
  · rw [h2.1]; rfl
  · rw [h2.2.2.1]; rfl

/-- C10: every YouTube submission is stripped of `<`, `>`, `"`, `'` — at
input time (the `onChange` handler stores the stripped value) and again in
the handler (which re-strips after trimming) — and must match the source's
YouTube URL pattern (`youtube.com/watch?v=<id>` / `youtu.be/<id>` over
http(s), optional `www.`); on a non-matching URL the handler sets the error
modal and returns immediately: it issues no network call at all and changes
nothing but `apiError`/`showApiErrorModal` (in particular progress and chart
state are untouched). -/
theorem youtubeUrl_sanitize_validate (net : YTNet) (itemId : Nat) (value url : String)
    (s : ModalState)
    (hbad : youtubeRegexTest (stripAngleQuote (jsTrim url)) = false) :
    ((youtubeUrlChange itemId value s).youtubeUrls itemId
        = some (stripAngleQuote value))
    ∧ (handleYouTubeUrl net itemId url s).2 = []
    ∧ (handleYouTubeUrl net itemId url s).1
        = { s with apiError := some invalidUrlMsg, showApiErrorModal := true }
    ∧ youtubeRegexTest "https://www.youtube.com/watch?v=dQw4w9WgXcQ" = true
    ∧ youtubeRegexTest "https://youtu.be/dQw4w9WgXcQ" = true
    ∧ youtubeRegexTest "http://youtube.com/watch?v=a_b-c&t=42" = true
    ∧ youtubeRegexTest "https://vimeo.com/watch?v=abcdef" = false
    ∧ youtubeRegexTest "youtube.com/watch?v=abcdef" = false := by
  refine ⟨?_, ?_, ?_, by decide, by decide, by decide, by decide, by decide⟩
  · simp [youtubeUrlChange, upd]
  · simp [handleYouTubeUrl, hbad]
  · simp [handleYouTubeUrl, hbad]

/-- Witness for C10: submitting the non-URL text `not a url` issues no
network call and only raises the invalid-URL error modal. -/
theorem youtubeUrl_sanitize_validate_witness :
    (handleYouTubeUrl ⟨true, true, some "t", true, []⟩ 1 "not a url" state0).2 = []
    ∧ (handleYouTubeUrl ⟨true, true, some "t", true, []⟩ 1 "not a url" state0).1
        = { state0 with apiError := some invalidUrlMsg, showApiErrorModal := true } :=
  ⟨(youtubeUrl_sanitize_validate ⟨true, true, some "t", true, []⟩ 1 "x" "not a url" state0
      (by decide)).2.1,
   (youtubeUrl_sanitize_validate ⟨true, true, some "t", true, []⟩ 1 "x" "not a url" state0
      (by decide)).2.2.1⟩

/-- C5: for a syntactically valid YouTube URL whose transcript check comes
back without a transcript (`hasTranscript` false, or a missing/empty
transcript), the handler surfaces the no-transcript error message and
returns having issued only the transcript-check call — never the autocreate
endpoint — so the item's existing chord charts (`chordCharts` and
`chordSections`, and hence the store, to which no write request is sent)
are left untouched. -/
theorem youtube_noTranscript_untouched (net : YTNet) (itemId : Nat) (url : String)
    (s : ModalState)
    (hok : youtubeRegexTest (stripAngleQuote (jsTrim url)) = true)
    (hcheck : net.checkOk = true)
    (hnone : net.hasTranscript = false ∨ jsFalsyOptStr net.transcript = true) :
    (handleYouTubeUrl net itemId url s).2
        = [NetCall.checkTranscript (stripAngleQuote (jsTrim url))]
    ∧ (handleYouTubeUrl net itemId url s).1.chordCharts = s.chordCharts
    ∧ (handleYouTubeUrl net itemId url s).1.chordSections = s.chordSections
    ∧ (handleYouTubeUrl net itemId url s).1.apiError = some noTranscriptMsg
    ∧ (handleYouTubeUrl net itemId url s).1.showApiErrorModal = true
    ∧ (handleYouTubeUrl net itemId url s).1.showAutocreateSuccessModal
        = s.showAutocreateSuccessModal := by
  have hcond : (!net.hasTranscript || jsFalsyOptStr net.transcript) = true := by
    rcases hnone with h | h <;> simp [h]
  refine ⟨?_, ?_, ?_, ?_, ?_, ?_⟩ <;>
    simp [handleYouTubeUrl, hok, hcheck, hcond, clearProgress]

/-- Witness for C5: a transcript check answering `hasTranscript: false` on a
valid URL leaves item 1's chart untouched and calls only the check endpoint. -/
theorem youtube_noTranscript_untouched_witness :
    (handleYouTubeUrl ⟨true, false, none, true, []⟩ 1 "https://youtu.be/abc"
        stateWithChart).2
      = [NetCall.checkTranscript "https://youtu.be/abc"]
    ∧ (handleYouTubeUrl ⟨true, false, none, true, []⟩ 1 "https://youtu.be/abc"
        stateWithChart).1.chordCharts 1
      = some [⟨10, some "s", some "Verse", some "", false, 0⟩] := by
  have h := youtube_noTranscript_untouched ⟨true, false, none, true, []⟩ 1
    "https://youtu.be/abc" stateWithChart (by decide) rfl (Or.inl rfl)
  refine ⟨?_, ?_⟩
  · rw [h.1]; rfl
  · rw [h.2.1]; rfl

/-- When every DELETE succeeds, the loop deletes every chart id, in order. -/
theorem runDeleteLoop_all_ok (ok : Nat → Bool) :
    ∀ l : List Chart, (∀ c ∈ l, ok c.id = true) →
      runDeleteLoop ok l = (l.map (fun c => c.id), true)
  | [], _ => rfl
  | c :: rest, h => by
    have hc : ok c.id = true := h c (List.mem_cons_self c rest)
    have ih := runDeleteLoop_all_ok ok rest (fun d hd => h d (List.mem_cons_of_mem c hd))
    simp [runDeleteLoop, hc, ih]

/-- When the DELETE of chart `c` fails after the charts of `pre` were all
deleted, the loop stops with exactly the ids of `pre` deleted. -/
theorem runDeleteLoop_stops (ok : Nat → Bool) (c : Chart) (post : List Chart) :
    ∀ pre : List Chart, (∀ d ∈ pre, ok d.id = true) → ok c.id = false →
      runDeleteLoop ok (pre ++ c :: post) = (pre.map (fun d => d.id), false)
  | [], _, hc => by simp [runDeleteLoop, hc]
  | d :: rest, hpre, hc => by
    have hd : ok d.id = true := hpre d (List.mem_cons_self d rest)
    have ih := runDeleteLoop_stops ok c post rest
      (fun e he => hpre e (List.mem_cons_of_mem d he)) hc
    simp [runDeleteLoop, hd, ih]

/-- C1 counterexample: when the per-chart DELETE of chart 3 fails, the run
ends with charts 1 and 2 deleted on the server but charts 3 and 4 still
present — the deletion is left partially applied (neither all charts were
removed nor none), and the state is completely unchanged, so no
`PersistencePartialFailure` (or any error) is surfaced to the caller. -/
theorem replaceAll_delete_nonatomic :
    (handleDeleteExistingCharts failAtThree storeFour stateDelete).1
      = [chartN 3, chartN 4]
    ∧ (handleDeleteExistingCharts failAtThree storeFour stateDelete).1 ≠ []
    ∧ (handleDeleteExistingCharts failAtThree storeFour stateDelete).1 ≠ storeFour
    ∧ (handleDeleteExistingCharts failAtThree storeFour stateDelete).2 = stateDelete := by
  refine ⟨by decide, by decide, by decide, rfl⟩

/-- C1 (amended): replace intent is implemented as a user-confirmed
pre-step that deletes the item's charts one per-chart DELETE request at a
time (before the new set is even produced).  When every DELETE succeeds the
server loses exactly the item's chart ids and the client state is cleared
with the autocreate zone opened; when a DELETE fails mid-loop the charts
before the failing one remain deleted on the server — deletion can be left
partially applied — while the client state is returned unchanged: the error
is only logged and no `PersistencePartialFailure` is surfaced. -/
theorem replaceAll_delete_loop (ok : Nat → Bool) (store : List Chart) (s : ModalState)
    (itemId : Nat) (hitem : s.deleteModalItemId = some itemId) :
    ((∀ c ∈ (s.chordCharts itemId).getD [], ok c.id = true) →
      (handleDeleteExistingCharts ok store s).1
        = store.filter
            (fun c => !(((s.chordCharts itemId).getD []).map (fun d => d.id)).contains c.id)
      ∧ (handleDeleteExistingCharts ok store s).2.chordCharts itemId = some []
      ∧ (handleDeleteExistingCharts ok store s).2.chordSections itemId = some []
      ∧ (handleDeleteExistingCharts ok store s).2.showAutocreateZone itemId = some true
      ∧ (handleDeleteExistingCharts ok store s).2.showDeleteChordsModal = false
      ∧ (handleDeleteExistingCharts ok store s).2.deleteModalItemId = none)
    ∧ (∀ pre c post, (s.chordCharts itemId).getD [] = pre ++ c :: post →
        (∀ d ∈ pre, ok d.id = true) → ok c.id = false →
        (handleDeleteExistingCharts ok store s).1
          = store.filter (fun e => !(pre.map (fun d => d.id)).contains e.id)
        ∧ (handleDeleteExistingCharts ok store s).2 = s) := by
  constructor
  · intro hall
    have hr := runDeleteLoop_all_ok ok ((s.chordCharts itemId).getD []) hall
    refine ⟨?_, ?_, ?_, ?_, ?_, ?_⟩ <;>
      simp [handleDeleteExistingCharts, hitem, hr, upd]
  · intro pre c post hsplit hpre hc
    have hr := runDeleteLoop_stops ok c post pre hpre hc
    constructor <;>
      simp [handleDeleteExistingCharts, hitem, hsplit, hr]

/-- Witness for amended C1: on the 4-chart scenario, an all-success run
clears the server and the client state, and the run failing at chart 3
leaves the server with charts 3 and 4 and the state untouched. -/
theorem replaceAll_delete_loop_witness :
    (handleDeleteExistingCharts (fun _ => true) storeFour stateDelete).1 = []
    ∧ (handleDeleteExistingCharts (fun _ => true) storeFour stateDelete).2.chordCharts 1
        = some []
    ∧ (handleDeleteExistingCharts failAtThree storeFour stateDelete).1
        = [chartN 3, chartN 4]
    ∧ (handleDeleteExistingCharts failAtThree storeFour stateDelete).2 = stateDelete := by
  have hOk := (replaceAll_delete_loop (fun _ => true) storeFour stateDelete 1 rfl).1
    (by decide)
  have hFail := (replaceAll_delete_loop failAtThree storeFour stateDelete 1 rfl).2
    [chartN 1, chartN 2] (chartN 3) [chartN 4] (by decide) (by decide) (by decide)
  refine ⟨?_, hOk.2.1, ?_, hFail.2⟩
  · rw [hOk.1]; decide
  · rw [hFail.1]; decide

/-- Helper: the Create Chord Charts button is enabled exactly when there is
no progress entry for the item and exactly one input modality is provided. -/
theorem createEnabled_iff (s : ModalState) (i : Nat) :
    createDisabled s i = false ↔ s.autocreateProgress i = none ∧ inputBits s i = 1 := by
  rcases Nat.eq_zero_or_pos (filesFor s i).length with hF | hF
  · cases hP : s.autocreateProgress i <;>
      cases hY : entryTruthy s.youtubeUrls i <;>
        cases hM : entryTruthy s.manualChordInput i <;>
          simp [createDisabled, inputBits, hP, hY, hM, hF]
  · have hF2 : ¬ (filesFor s i).length = 0 := by omega
    cases hP : s.autocreateProgress i <;>
      cases hY : entryTruthy s.youtubeUrls i <;>
        cases hM : entryTruthy s.manualChordInput i <;>
          simp [createDisabled, inputBits, hP, hY, hM, hF, hF2]

/-- C4 counterexample: with the single provided input being the manual
chord text `-` (which fails validation), the Create Chord Charts button is
enabled (no progress, exactly one input) yet `handleProcessFiles` dispatches
to none of the three handlers — not "exactly one". -/
theorem processFiles_no_dispatch :
    createDisabled stateManualBad 1 = false
    ∧ inputBits stateManualBad 1 = 1
    ∧ (handleProcessFiles 1 stateManualBad).1 = none := by
  refine ⟨by decide, by decide, by decide⟩

/-- C4 (amended): the Create Chord Charts action is enabled iff no job is
in progress for the item and exactly one of the three inputs is provided,
and `handleProcessFiles` then dispatches to at most one handler — the
handler of the provided modality — invoking none only when the sole input
is manual chord text that fails validation. -/
theorem processFiles_dispatch (s : ModalState) (i : Nat) :
    (createDisabled s i = false ↔ s.autocreateProgress i = none ∧ inputBits s i = 1)
    ∧ (entryTruthy s.youtubeUrls i = true →
        (handleProcessFiles i s).1 = some AutocreateHandler.youtube)
    ∧ (entryTruthy s.youtubeUrls i = false → entryTruthy s.manualChordInput i = true →
        (handleProcessFiles i s).1
          = if (validateManualChordInput (jsTrim ((s.manualChordInput i).getD ""))).1
            then some AutocreateHandler.manualEntry else none)
    ∧ (createDisabled s i = false → entryTruthy s.youtubeUrls i = false →
        entryTruthy s.manualChordInput i = false →
        (handleProcessFiles i s).1 = some AutocreateHandler.fileDrop) := by
  refine ⟨createEnabled_iff s i, ?_, ?_, ?_⟩
  · intro hY
    simp [handleProcessFiles, hY]
  · intro hY hM
    simp [handleProcessFiles, hY, hM, apply_ite]
  · intro hE hY hM
    have hbits := ((createEnabled_iff s i).mp hE).2
    have hF2 : ¬ (filesFor s i).length = 0 := by
      intro hc
      simp [inputBits, hY, hM, hc] at hbits
    simp [handleProcessFiles, hY, hM, hF2]

/-- Witness for amended C4: with only a YouTube URL on item 1, the button
is enabled and `handleProcessFiles` dispatches to the YouTube handler. -/
theorem processFiles_dispatch_witness :
    createDisabled stateYT 1 = false
    ∧ (handleProcessFiles 1 stateYT).1 = some AutocreateHandler.youtube :=
  ⟨(processFiles_dispatch stateYT 1).1.mpr ⟨rfl, by decide⟩,
   (processFiles_dispatch stateYT 1).2.1 (by decide)⟩

/-- C7 counterexample: the source's character classes contain the mojibake
characters `‚ô≠Ø` rather than `♭`/`♯`, so the input `C≠` — containing
`≠` (U+2260), which is outside the claim's allowed character set — is
accepted by `validateManualChordInput`, and conversely the input `C♭`,
every character of which the claim allows, is rejected. -/
theorem manualValidation_charset_mismatch :
    (validateManualChordInput "C≠").1 = true
    ∧ (Char.ofNat 0x2260) ∈ (jsTrim "C≠").data
    ∧ claimAllowedChar (Char.ofNat 0x2260) = false
    ∧ (validateManualChordInput "C♭").1 = false
    ∧ (∀ c ∈ (jsTrim "C♭").data, claimAllowedChar c = true) := by decide

/-- Helper: the `words.every(...)` over the nonempty words equals a bounded
quantifier over all words of the split. -/
theorem filter_all_iff (L : List (List Char)) :
    ((L.filter (fun w => !w.isEmpty)).all isChordWord = true)
      ↔ ∀ w ∈ L, w ≠ [] → isChordWord w = true := by
  rw [List.all_eq_true]
  constructor
  · intro h w hw hne
    refine h w (List.mem_filter.mpr ⟨hw, ?_⟩)
    simp [List.isEmpty_iff, hne]
  · intro h w hw
    rcases List.mem_filter.mp hw with ⟨hm, hne⟩
    exact h w hm (by simpa [List.isEmpty_iff] using hne)

/-- C7 (amended): `validateManualChordInput` accepts empty or
whitespace-only input; it accepts a non-empty input iff (a) every character
of the trimmed text lies in the source's class (letters, digits, `#`, `b`,
the literal characters `‚`, `ô`, `≠`, `Ø` — an encoding artifact standing
where `♭`/`♯` were intended — `/`, hyphen, comma and whitespace) and (b)
some line, after trimming, is nonempty and is either a bare alphabetic word
or consists only of comma/whitespace-separated words each starting with a
root letter A–G followed by suffix characters of the same class; otherwise
it returns false and records a per-item error message (an error is recorded
exactly when it returns false). -/
theorem manualValidation_accepts_iff (input : String) :
    ((validateManualChordInput input).1 = true ↔
      (jsTrim input).data = []
      ∨ ((∀ c ∈ (jsTrim input).data, validPatternChar c = true)
         ∧ ∃ l ∈ splitRuns lineSepChar (jsTrim input).data, lineHasValidContent l = true))
    ∧ ((validateManualChordInput input).2.isSome = !(validateManualChordInput input).1)
    ∧ (∀ l, lineHasValidContent l = true ↔
        jsTrimList l ≠ []
        ∧ (isSectionName (jsTrimList l) = true
           ∨ ∀ w ∈ splitRuns wordSepChar (jsTrimList l), w ≠ [] → isChordWord w = true)) := by
  refine ⟨?_, ?_, ?_⟩
  · simp only [← List.all_eq_true, ← List.any_eq_true]
    unfold validateManualChordInput
    by_cases h0 : (jsTrim input).data.isEmpty = true
    · simp [h0, List.isEmpty_iff.mp h0]
    · have h0x : (jsTrim input).data ≠ [] := fun hc => h0 (List.isEmpty_iff.mpr hc)
      by_cases hall : (jsTrim input).data.all validPatternChar = true
      · by_cases hany :
            (splitRuns lineSepChar (jsTrim input).data).any lineHasValidContent = true
        · simp [h0, hall, hany]
        · simp [h0, h0x, hall, hany]
      · simp [h0, h0x, hall]
  · unfold validateManualChordInput
    by_cases h0 : (jsTrim input).data.isEmpty = true
    · simp [h0]
    · by_cases hall : (jsTrim input).data.all validPatternChar = true
      · by_cases hany :
            (splitRuns lineSepChar (jsTrim input).data).any lineHasValidContent = true
        · simp [h0, hall, hany]
        · simp [h0, hall, hany]
      · simp [h0, hall]
  · intro l
    unfold lineHasValidContent
    by_cases hcl : (jsTrimList l).isEmpty = true
    · simp [hcl, List.isEmpty_iff.mp hcl]
    · have hclx : jsTrimList l ≠ [] := fun hc => hcl (List.isEmpty_iff.mpr hc)
      by_cases hsec : isSectionName (jsTrimList l) = true
      · simp [hcl, hsec, hclx]
      · simp [hcl, hsec, hclx, filter_all_iff]
        constructor
        · intro h w hw hne
          rcases h w hw with hc | hc
          · exact absurd hc hne
          · exact hc
        · intro h w hw
          by_cases hne : w = []
          · exact Or.inl hne
          · exact Or.inr (h w hw hne)

/-- Witness for amended C7: `Verse` (a bare section word) is accepted, via
the right-to-left direction of the characterization. -/
theorem manualValidation_accepts_iff_witness :
    (validateManualChordInput "Verse").1 = true :=
  (manualValidation_accepts_iff "Verse").1.mpr (Or.inr ⟨by decide, by decide⟩)

/-- Helper: `getLast?` of a cons with nonempty tail is the tail's. -/
theorem getLast?_cons_of_ne {α : Type} (a : α) (l : List α) (h : l ≠ []) :
    (a :: l).getLast? = l.getLast? := by
  cases l with
  | nil => exact absurd rfl h
  | cons b t => rfl

/-- Helper: the row grouping loses and reorders nothing. -/
theorem chordRowsGo_flatten (cs : List Chart) :
    ∀ current : List Chart, (current = [] ∨ cs ≠ []) →
      (chordRowsGo current cs).flatten = current ++ cs := by
  induction cs with
  | nil =>
    intro current hc
    rcases hc with rfl | hc
    · rfl
    · exact absurd rfl hc
  | cons c rest ih =>
    intro current _
    by_cases hcond : ((c.hasLineBreakAfter = true ∨ 4 ≤ current.length) ∨ rest = [])
    · by_cases hrest : rest = []
      · subst hrest
        simp [chordRowsGo, hcond]
      · have h2 := ih [] (Or.inr hrest)
        simp [chordRowsGo, hcond, h2]
    · have hrest : rest ≠ [] := fun hr => hcond (Or.inr hr)
      have h2 := ih (current ++ [c]) (Or.inr hrest)
      simp [chordRowsGo, hcond, h2]

/-- Helper: every produced row is nonempty and holds at most 5 charts. -/
theorem chordRowsGo_bound (cs : List Chart) :
    ∀ current : List Chart, current.length ≤ 4 →
      ∀ r ∈ chordRowsGo current cs, r ≠ [] ∧ r.length ≤ 5 := by
  induction cs with
  | nil =>
    intro current _ r hr
    simp [chordRowsGo] at hr
  | cons c rest ih =>
    intro current hlen r hr
    by_cases hcond : ((c.hasLineBreakAfter = true ∨ 4 ≤ current.length) ∨ rest = [])
    · simp only [chordRowsGo] at hr
      rw [if_pos] at hr
      · rcases List.mem_cons.mp hr with rfl | hmem
        · constructor
          · simp
          · simp
            omega
        · exact ih [] (by simp) r hmem
      · simpa using hcond
    · simp only [chordRowsGo] at hr
      rw [if_neg] at hr
      · have hlen2 : (current ++ [c]).length ≤ 4 := by
          rcases Nat.lt_or_ge current.length 4 with h4 | h4
          · simp
            omega
          · exact absurd (Or.inl (Or.inr h4)) hcond
        exact ih (current ++ [c]) hlen2 r hr
      · simpa using hcond

/-- Helper: within a row, no chart before the last carries the forced
line-break flag (the row would have been closed there). -/
theorem chordRowsGo_nobreak (cs : List Chart) :
    ∀ current : List Chart, (∀ c ∈ current, c.hasLineBreakAfter = false) →
      ∀ r ∈ chordRowsGo current cs, ∀ c ∈ r.dropLast, c.hasLineBreakAfter = false := by
  induction cs with
  | nil =>
    intro current _ r hr
    simp [chordRowsGo] at hr
  | cons c rest ih =>
    intro current hnb r hr
    by_cases hcond : ((c.hasLineBreakAfter = true ∨ 4 ≤ current.length) ∨ rest = [])
    · simp only [chordRowsGo] at hr
      rw [if_pos] at hr
      · rcases List.mem_cons.mp hr with rfl | hmem
        · rw [List.dropLast_concat]
          exact hnb
        · exact ih [] (by simp) r hmem
      · simpa using hcond
    · simp only [chordRowsGo] at hr
      rw [if_neg] at hr
      · have hcb : c.hasLineBreakAfter = false := by
          rcases Bool.eq_false_or_eq_true c.hasLineBreakAfter with h | h
          · exact absurd (Or.inl (Or.inl h)) hcond
          · exact h
        have hnb2 : ∀ d ∈ current ++ [c], d.hasLineBreakAfter = false := by
          intro d hd
          rcases List.mem_append.mp hd with hd | hd
          · exact hnb d hd
          · rcases List.mem_singleton.mp hd with rfl
            exact hcb
        exact ih (current ++ [c]) hnb2 r hr
      · simpa using hcond

/-- Helper: every produced row closes for one of the three reasons of the
source — it is full (5 charts), its last chart carries the line-break flag,
or it is the final row. -/
theorem chordRowsGo_endreason (cs : List Chart) :
    ∀ current : List Chart, current.length ≤ 4 →
      ∀ r ∈ chordRowsGo current cs,
        r.length = 5
        ∨ (∃ c, r.getLast? = some c ∧ c.hasLineBreakAfter = true)
        ∨ (chordRowsGo current cs).getLast? = some r := by
  induction cs with
  | nil =>
    intro current _ r hr
    simp [chordRowsGo] at hr
  | cons c rest ih =>
    intro current hlen r hr
    by_cases hcond : ((c.hasLineBreakAfter = true ∨ 4 ≤ current.length) ∨ rest = [])
    · have hres : chordRowsGo current (c :: rest)
          = (current ++ [c]) :: chordRowsGo [] rest := by
        simp only [chordRowsGo]
        rw [if_pos]
        simpa using hcond
      rw [hres] at hr ⊢
      rcases List.mem_cons.mp hr with rfl | hmem
      · rcases hcond with (hbrk | hlen4) | hrest
        · refine Or.inr (Or.inl ⟨c, ?_, hbrk⟩)
          simp
        · left
          simp
          omega
        · subst hrest
          right
          right
          simp [chordRowsGo]
      · rcases ih [] (by simp) r hmem with h5 | hbrk | hlast
        · exact Or.inl h5
        · exact Or.inr (Or.inl hbrk)
        · right
          right
          have hne : chordRowsGo [] rest ≠ [] := by
            intro h0
            rw [h0] at hmem
            simp at hmem
          rw [getLast?_cons_of_ne _ _ hne]
          exact hlast
    · have hres : chordRowsGo current (c :: rest) = chordRowsGo (current ++ [c]) rest := by
        simp only [chordRowsGo]
        rw [if_neg]
        simpa using hcond
      rw [hres] at hr ⊢
      have hlen2 : (current ++ [c]).length ≤ 4 := by
        rcases Nat.lt_or_ge current.length 4 with h4 | h4
        · simp
          omega
        · exact absurd (Or.inl (Or.inr h4)) hcond
      exact ih (current ++ [c]) hlen2 r hr

/-- C8: the grid rows of a section partition its charts in order
(concatenating the rows restores the chart list), every row is nonempty
with at most 5 charts, a row never breaks early (no chart before a row's
last carries `hasLineBreakAfter`), and every row ends exactly for one of
the three reasons of the source: it reached 5 charts, its last chart
carries the forced line-break flag, or it is the section's last row. -/
theorem chordRows_partition (chords : List Chart) :
    (chordRows chords).flatten = chords
    ∧ (∀ r ∈ chordRows chords, r ≠ [] ∧ r.length ≤ 5)
    ∧ (∀ r ∈ chordRows chords, ∀ c ∈ r.dropLast, c.hasLineBreakAfter = false)
    ∧ (∀ r ∈ chordRows chords,
        r.length = 5 ∨ (∃ c, r.getLast? = some c ∧ c.hasLineBreakAfter = true)
        ∨ (chordRows chords).getLast? = some r) :=
  ⟨chordRowsGo_flatten chords [] (Or.inl rfl),
   chordRowsGo_bound chords [] (by simp),
   chordRowsGo_nobreak chords [] (by simp),
   chordRowsGo_endreason chords [] (by simp)⟩

/-- Witness for C8: on a 7-chart section with a forced break after chart 2,
the rows come out as [1,2], [3,4,5,6,7]; flattening restores the charts. -/
theorem chordRows_partition_witness :
    ((chordRows [chartN 1, ⟨2, some "s1", some "Verse", some "", true, 2⟩,
        chartN 3, chartN 4, chartN 5, chartN 6, chartN 7]).flatten
      = [chartN 1, ⟨2, some "s1", some "Verse", some "", true, 2⟩,
        chartN 3, chartN 4, chartN 5, chartN 6, chartN 7])
    ∧ (chordRows [chartN 1, ⟨2, some "s1", some "Verse", some "", true, 2⟩,
        chartN 3, chartN 4, chartN 5, chartN 6, chartN 7]).map (fun r => r.map Chart.id)
      = [[1, 2], [3, 4, 5, 6, 7]] :=
  ⟨(chordRows_partition _).1, by decide⟩

/-- Helper: one step of the distinct-section-id fold. -/
theorem distinct_append_singleton (l : List Chart) (c : Chart) :
    distinctSectionIds (l ++ [c])
      = if effSectionId c ∈ distinctSectionIds l then distinctSectionIds l
        else distinctSectionIds l ++ [effSectionId c] := by
  simp [distinctSectionIds, List.foldl_append]

/-- Helper: membership in the distinct section ids. -/
theorem mem_distinctSectionIds (a : String) :
    ∀ l : List Chart, a ∈ distinctSectionIds l ↔ ∃ c ∈ l, effSectionId c = a := by
  intro l
  induction l using List.reverseRecOn with
  | nil => simp [distinctSectionIds]
  | append_singleton l c ih =>
    rw [distinct_append_singleton]
    by_cases hmem : effSectionId c ∈ distinctSectionIds l
    · rw [if_pos hmem]
      rw [ih]
      constructor
      · rintro ⟨d, hd, hda⟩
        exact ⟨d, List.mem_append_left _ hd, hda⟩
      · rintro ⟨d, hd, hda⟩
        rcases List.mem_append.mp hd with hd | hd
        · exact ⟨d, hd, hda⟩
        · rcases List.mem_singleton.mp hd with rfl
          exact (ih.mp (hda ▸ hmem))
    · rw [if_neg hmem]
      constructor
      · intro ha
        rcases List.mem_append.mp ha with ha | ha
        · rcases ih.mp ha with ⟨d, hd, hda⟩
          exact ⟨d, List.mem_append_left _ hd, hda⟩
        · rcases List.mem_singleton.mp ha with rfl
          exact ⟨c, List.mem_append_right _ (List.mem_singleton.mpr rfl), rfl⟩
      · rintro ⟨d, hd, hda⟩
        rcases List.mem_append.mp hd with hd | hd
        · exact List.mem_append_left _ (ih.mpr ⟨d, hd, hda⟩)
        · rcases List.mem_singleton.mp hd with rfl
          exact List.mem_append_right _ (List.mem_singleton.mpr hda.symm)

/-- Helper: the distinct section ids contain no duplicate. -/
theorem distinctSectionIds_nodup : ∀ l : List Chart, (distinctSectionIds l).Nodup := by
  intro l
  induction l using List.reverseRecOn with
  | nil => simp [distinctSectionIds]
  | append_singleton l c ih =>
    rw [distinct_append_singleton]
    by_cases hmem : effSectionId c ∈ distinctSectionIds l
    · rw [if_pos hmem]
      exact ih
    · rw [if_neg hmem]
      simp [List.nodup_append, ih, hmem]

/-- Helper: the head of an append with nonempty left part. -/
theorem head?_append_left {α : Type} (l l2 : List α) (h : l ≠ []) :
    (l ++ l2).head? = l.head? := by
  cases l with
  | nil => exact absurd rfl h
  | cons a t => rfl

/-- Helper: building sections processes charts one `insertChart` step at a time. -/
theorem buildSections_append_singleton (l : List Chart) (c : Chart) :
    buildSectionsFromCharts (l ++ [c]) = insertChart (buildSectionsFromCharts l) c := by
  simp [buildSectionsFromCharts, List.foldl_append]


/-- Helper: the grouping invariant of `buildSectionsFromCharts` — the
sections' ids are the distinct effective section ids in first-occurrence
order, each section's chords are exactly the charts of its id in input
order (hence nonempty), and each section's label and repeat count come from
its first chart. -/
theorem buildSections_invariant :
    ∀ l : List Chart,
      (buildSectionsFromCharts l).map SectionGroup.id = distinctSectionIds l
      ∧ ∀ s ∈ buildSectionsFromCharts l,
          s.chords = l.filter (fun c => effSectionId c = s.id)
          ∧ s.chords ≠ []
          ∧ ∀ c, s.chords.head? = some c →
              s.label = jsOr c.sectionLabel "Section"
              ∧ s.repeatCount = jsOr c.sectionRepeatCount "" := by
  intro l
  induction l using List.reverseRecOn with
  | nil => exact ⟨rfl, by simp [buildSectionsFromCharts]⟩
  | append_singleton l c ih =>
    obtain ⟨ihids, ihgrp⟩ := ih
    rw [buildSections_append_singleton]
    simp only [insertChart]
    by_cases hmem :
        (buildSectionsFromCharts l).any (fun s => s.id = effSectionId c) = true
    · have hmem2 : effSectionId c ∈ distinctSectionIds l := by
        rcases List.any_eq_true.mp hmem with ⟨s, hs, hsid⟩
        have he : s.id = effSectionId c := of_decide_eq_true hsid
        rw [← ihids]
        exact he ▸ List.mem_map_of_mem SectionGroup.id hs
      rw [if_pos hmem]
      constructor
      · rw [List.map_map, distinct_append_singleton, if_pos hmem2, ← ihids]
        refine List.map_congr_left ?_
        intro s _
        by_cases h : s.id = effSectionId c <;> simp [h]
      · intro s' hs'
        rcases List.mem_map.mp hs' with ⟨s, hs, rfl⟩
        obtain ⟨hch, hne, hlab⟩ := ihgrp s hs
        by_cases h : s.id = effSectionId c
        · rw [if_pos h]
          refine ⟨?_, by simp, ?_⟩
          · simp [List.filter_append, hch, h]
          · intro d hd
            rw [head?_append_left _ _ hne] at hd
            exact hlab d hd
        · rw [if_neg h]
          refine ⟨?_, hne, hlab⟩
          rw [List.filter_append, hch]
          have hne2 : effSectionId c ≠ s.id := fun he => h he.symm
          simp [hne2]
    · have hnot : effSectionId c ∉ distinctSectionIds l := by
        intro hc
        rw [← ihids] at hc
        rcases List.mem_map.mp hc with ⟨s, hs, hsid⟩
        exact absurd (List.any_eq_true.mpr ⟨s, hs, decide_eq_true hsid⟩) hmem
      rw [if_neg hmem]
      constructor
      · rw [List.map_append, distinct_append_singleton, if_neg hnot, ← ihids]
        rfl
      · intro s' hs'
        rcases List.mem_append.mp hs' with hs | hs
        · obtain ⟨hch, hne, hlab⟩ := ihgrp s' hs
          refine ⟨?_, hne, hlab⟩
          rw [List.filter_append, hch]
          have hid : s'.id ∈ distinctSectionIds l := by
            rw [← ihids]
            exact List.mem_map_of_mem SectionGroup.id hs
          have hne2 : effSectionId c ≠ s'.id := fun he => hnot (by rw [he]; exact hid)
          simp [hne2]
        · rcases List.mem_singleton.mp hs with rfl
          refine ⟨?_, by simp, ?_⟩
          · rw [List.filter_append]
            have hfl : l.filter (fun d => effSectionId d = effSectionId c) = [] := by
              rw [List.filter_eq_nil_iff]
              intro d hd hde
              exact hnot ((mem_distinctSectionIds (effSectionId c) l).mpr
                ⟨d, hd, of_decide_eq_true hde⟩)
            simp [hfl]
          · intro d hd
            rcases Option.some_inj.mp hd with rfl
            exact ⟨rfl, rfl⟩

/-- Helper: a fold of `min` over chart orders is a lower bound. -/
theorem foldl_min_le (rest : List Chart) :
    ∀ a : Int, (rest.foldl (fun m d => min m d.order) a) ≤ a
      ∧ ∀ d ∈ rest, (rest.foldl (fun m d => min m d.order) a) ≤ d.order := by
  induction rest with
  | nil =>
    intro a
    exact ⟨le_refl a, by simp⟩
  | cons d rest ih =>
    intro a
    have h := ih (min a d.order)
    simp only [List.foldl_cons]
    constructor
    · exact le_trans h.1 (min_le_left _ _)
    · intro e he
      rcases List.mem_cons.mp he with rfl | he
      · exact le_trans h.1 (min_le_right _ _)
      · exact h.2 e he

/-- Helper: `listMinOrder` bounds every member's order from below. -/
theorem listMinOrder_le (l : List Chart) (d : Chart) (hd : d ∈ l) :
    listMinOrder l ≤ d.order := by
  cases l with
  | nil => cases hd
  | cons c rest =>
    rcases List.mem_cons.mp hd with rfl | hd2
    · exact (foldl_min_le rest d.order).1
    · exact (foldl_min_le rest c.order).2 d hd2

/-- Helper: appending one chart takes a `min` with its order. -/
theorem listMinOrder_append (l : List Chart) (c : Chart) (h : l ≠ []) :
    listMinOrder (l ++ [c]) = min (listMinOrder l) c.order := by
  cases l with
  | nil => exact absurd rfl h
  | cons a rest => simp [listMinOrder, List.foldl_append]

/-- Helper: appending a chart of larger-or-equal order keeps the minimum. -/
theorem listMinOrder_append_of_le (l : List Chart) (c : Chart) (h : l ≠ [])
    (hle : listMinOrder l ≤ c.order) :
    listMinOrder (l ++ [c]) = listMinOrder l := by
  rw [listMinOrder_append l c h]
  exact min_eq_left hle

/-- Helper: on a chart list sorted by `order`, the produced sections are
sorted by the minimum order of their member charts. -/
theorem buildSections_minOrder :
    ∀ charts : List Chart,
      List.Pairwise (fun a b => a.order ≤ b.order) charts →
      (buildSectionsFromCharts charts).Pairwise
        (fun s t => listMinOrder s.chords ≤ listMinOrder t.chords) := by
  intro charts
  induction charts using List.reverseRecOn with
  | nil =>
    intro _
    simp [buildSectionsFromCharts]
  | append_singleton l c ih =>
    intro hsort
    have hp := List.pairwise_append.mp hsort
    have hsl := hp.1
    have hle : ∀ a ∈ l, a.order ≤ c.order := by
      intro a ha
      exact hp.2.2 a ha c (List.mem_singleton.mpr rfl)
    have hmin : ∀ s ∈ buildSectionsFromCharts l, listMinOrder s.chords ≤ c.order := by
      intro s hs
      obtain ⟨hch, hne, _⟩ := (buildSections_invariant l).2 s hs
      obtain ⟨d, hd⟩ := List.exists_mem_of_ne_nil s.chords hne
      have hdl : d ∈ l := by
        have hmem := hch ▸ hd
        exact (List.mem_filter.mp hmem).1
      exact le_trans (listMinOrder_le s.chords d hd) (hle d hdl)
    rw [buildSections_append_singleton]
    simp only [insertChart]
    by_cases hmem :
        (buildSectionsFromCharts l).any (fun s => s.id = effSectionId c) = true
    · rw [if_pos hmem, List.pairwise_map]
      refine (ih hsl).imp_of_mem ?_
      intro s t hsm htm hst
      have key : ∀ u ∈ buildSectionsFromCharts l,
          listMinOrder (if u.id = effSectionId c
            then { u with chords := u.chords ++ [c] } else u).chords
            = listMinOrder u.chords := by
        intro u hu
        by_cases h : u.id = effSectionId c
        · rw [if_pos h]
          obtain ⟨_, hne, _⟩ := (buildSections_invariant l).2 u hu
          exact listMinOrder_append_of_le u.chords c hne (hmin u hu)
        · rw [if_neg h]
      rw [key s hsm, key t htm]
      exact hst
    · rw [if_neg hmem, List.pairwise_append]
      refine ⟨ih hsl, by simp, ?_⟩
      intro s hs t ht
      rcases List.mem_singleton.mp ht with rfl
      simpa [listMinOrder] using hmin s hs


/-- C6: sections are a purely derived grouping of the chart list —
`buildSectionsFromCharts` returns exactly one section per distinct
effective section id (charts without one fall under `default-section`),
ordered by first occurrence of the id in the input; each section's chords
are exactly the input charts bearing its id, in input order (so every chart
lands in exactly one section), each section carries the label and repeat
count of its first chart, and when the input is sorted by `order` the
sections are ordered by the minimum `order` of their member charts. -/
theorem buildSections_derived_grouping (charts : List Chart) :
    ((buildSectionsFromCharts charts).map SectionGroup.id = distinctSectionIds charts)
    ∧ (distinctSectionIds charts).Nodup
    ∧ (∀ a, a ∈ distinctSectionIds charts ↔ ∃ c ∈ charts, effSectionId c = a)
    ∧ (∀ s ∈ buildSectionsFromCharts charts,
        s.chords = charts.filter (fun c => effSectionId c = s.id)
        ∧ s.chords ≠ []
        ∧ ∀ c, s.chords.head? = some c →
            s.label = jsOr c.sectionLabel "Section"
            ∧ s.repeatCount = jsOr c.sectionRepeatCount "")
    ∧ (List.Pairwise (fun a b => a.order ≤ b.order) charts →
        (buildSectionsFromCharts charts).Pairwise
          (fun s t => listMinOrder s.chords ≤ listMinOrder t.chords)) :=
  ⟨(buildSections_invariant charts).1, distinctSectionIds_nodup charts,
   fun a => mem_distinctSectionIds a charts,
   (buildSections_invariant charts).2, buildSections_minOrder charts⟩

/-- Witness for C6: on `chartsW` the section ids come out in
first-occurrence order and the min-order conclusion holds. -/
theorem buildSections_derived_grouping_witness :
    (buildSectionsFromCharts chartsW).map SectionGroup.id
      = ["verse", "chorus", "default-section"]
    ∧ (buildSectionsFromCharts chartsW).Pairwise
        (fun s t => listMinOrder s.chords ≤ listMinOrder t.chords) := by
  have h := buildSections_derived_grouping chartsW
  refine ⟨?_, h.2.2.2.2 (by decide)⟩
  rw [h.1]
  decide

end GPR
